import Mathlib

/-!
Shallow embedding of the WebDB promise wrapper over IndexedDB.

The repository contains two versions of the single class `WebDB`:
`src/db.ts` (embedded below in namespace `DbTs`) and the file
`unnamed/part_000` (embedded in namespace `Part000`).  Both versions share
the constructor, the open-handshake continuations and the `transaction`
method; they differ in the rejection values of `get`, `getAll`, `add`,
`put`, `delete` and in the whole body of `clear`.

The IndexedDB engine itself is an external collaborator; the definitions
marked as engine contract model the behaviour of the engine calls that the
class issues (store creation and deletion, add/put/delete/clear requests,
request and transaction events).  Promise settlement is modelled
explicitly, with a `pending` state, so that a promise that is never
resolved nor rejected is distinguishable from one that settles.
-/

namespace WebDBSpec

/-- JavaScript values as far as the claims need them: primitives, Error
objects (identified by their message) and DOMExceptions (identified by
their name). -/
inductive JSVal where
  | undef : JSVal
  | bool : Bool → JSVal
  | num : Nat → JSVal
  | str : String → JSVal
  | err : String → JSVal
  | dom : String → JSVal
  deriving Repr, DecidableEq

/-- IndexedDB keys, modelled as naturals. -/
abbrev Key := Nat

/-- Declaration of a secondary index (`WebDBObjectStoreIndex` in the
typings: name, keyPath and the `IDBIndexParameters` options). -/
structure WebDBObjectStoreIndex where
  name : String
  keyPath : String
  unique : Bool := false
  multiEntry : Bool := false
  deriving Repr, DecidableEq

/-- Store creation options (the `options` field of a store descriptor:
keyPath and autoIncrement). -/
structure WebDBStoreOptions where
  keyPath : Option String := none
  autoIncrement : Bool := false
  deriving Repr, DecidableEq

/-- Per-store configuration (the `configs` field of a store descriptor:
the recreate flag and the declared index list). -/
structure WebDBStoreConfigs where
  recreate : Bool := false
  indexes : Option (List WebDBObjectStoreIndex) := none
  deriving Repr, DecidableEq

/-- A store descriptor of the declared schema (`WebDBObjectStore`). -/
structure WebDBObjectStore where
  name : String
  options : Option WebDBStoreOptions := none
  configs : Option WebDBStoreConfigs := none
  deriving Repr, DecidableEq

/-- The schema declaration handed to the constructor
(`WebDBSetupOptions`). -/
structure WebDBSetupOptions where
  objectStores : Option (List WebDBObjectStore) := none
  deriving Repr, DecidableEq

/-- Engine-side state of one object store: its creation options, the
indexes created on it, its records and the auto-increment key
generator. -/
structure ObjectStoreState where
  options : Option WebDBStoreOptions := none
  indexes : List WebDBObjectStoreIndex := []
  records : List (Key × JSVal) := []
  keyGen : Key := 1
  deriving Repr, DecidableEq

/-- Engine-side database contents: the named object stores. -/
abbrev DBState := List (String × ObjectStoreState)

/-- The `db.objectStoreNames.contains(name)` test. -/
def containsStore (d : DBState) (n : String) : Bool :=
  (d.lookup n).isSome

/-- `db.deleteObjectStore(name)` (engine contract). -/
def deleteObjectStore (d : DBState) (n : String) : DBState :=
  d.filter (fun p => p.1 != n)

/-- The truthiness test `configs?.recreate` of the upgrade loop. -/
def recreateOf (sd : WebDBObjectStore) : Bool :=
  (sd.configs.map (fun c => c.recreate)).getD false

/-- The declared index list of a store descriptor (`configs?.indexes`,
empty when absent). -/
def indexesOf (sd : WebDBObjectStore) : List WebDBObjectStoreIndex :=
  (sd.configs.bind (fun c => c.indexes)).getD []

/-- `db.createObjectStore(name, options)` followed by the loop
`configs.indexes.forEach(idx => store.createIndex(idx.name, idx.keyPath,
idx.options))`: a fresh store carrying the declared options and the
declared indexes, created one by one in declaration order. -/
def mkStore (sd : WebDBObjectStore) : ObjectStoreState :=
  { options := sd.options,
    indexes := (indexesOf sd).foldl (fun acc idx => acc ++ [idx]) [],
    records := [],
    keyGen := 1 }

/-- Whether an index with the given name exists on the store; the engine
call `objectStore.index(name)` succeeds exactly when it does and throws a
NotFoundError otherwise. -/
def hasIndex (st : ObjectStoreState) (n : String) : Bool :=
  st.indexes.any (fun idx => idx.name == n)

/-- Engine contract for `IDBObjectStore.add`: the insert request fails
with a ConstraintError when a record with the resulting key already
exists, and otherwise appends the record under the explicit key or a
generated one. -/
def storeAddReq (st : ObjectStoreState) (v : JSVal) (k : Option Key) :
    Except JSVal (ObjectStoreState × Key) :=
  let key := k.getD st.keyGen
  if st.records.any (fun r => r.1 == key) then
    Except.error (JSVal.dom "ConstraintError")
  else
    Except.ok
      ({ st with
          records := st.records ++ [(key, v)],
          keyGen := if k.isSome then st.keyGen else st.keyGen + 1 }, key)

/-- Engine contract for `IDBObjectStore.put`: replaces any record under
the resulting key. -/
def storePutReq (st : ObjectStoreState) (v : JSVal) (k : Option Key) :
    ObjectStoreState × Key :=
  let key := k.getD st.keyGen
  ({ st with
      records := st.records.filter (fun r => r.1 != key) ++ [(key, v)],
      keyGen := if k.isSome then st.keyGen else st.keyGen + 1 }, key)

/-- Engine contract for `IDBObjectStore.delete`: removes any record under
the key; the request succeeds whether or not one existed. -/
def storeDeleteReq (st : ObjectStoreState) (q : Key) : ObjectStoreState :=
  { st with records := st.records.filter (fun r => r.1 != q) }

/-- Engine contract for `IDBObjectStore.clear`. -/
def clearStore (st : ObjectStoreState) : ObjectStoreState :=
  { st with records := [] }

/-- Apply a store-level mutation to the named store of the database. -/
def updateStore (d : DBState) (n : String)
    (f : ObjectStoreState → ObjectStoreState) : DBState :=
  d.map (fun p => if p.1 == n then (p.1, f p.2) else p)

/-- One iteration of the for-loop in `handleUpgradeNeeded` (src/db.ts
lines 38 to 51, identical in part_000): when the recreate flag is set and
a store of that name exists it is deleted, and then, when no store of
that name exists, it is created with the declared options and indexes. -/
def upgradeStep (d : DBState) (sd : WebDBObjectStore) : DBState :=
  let d1 :=
    if recreateOf sd && containsStore d sd.name then deleteObjectStore d sd.name
    else d
  if containsStore d1 sd.name then d1
  else d1 ++ [(sd.name, mkStore sd)]

/-- The schema-application body of the `onupgradeneeded` continuation
(src/db.ts lines 37 to 52): guarded by `this.setup?.objectStores`, then
the iteration above folded over the descriptors in declaration order. -/
def handleUpgradeNeeded (setup : Option WebDBSetupOptions) (d : DBState) :
    DBState :=
  match setup with
  | none => d
  | some s =>
    match s.objectStores with
    | none => d
    | some stores => stores.foldl upgradeStep d

/-- The observable settlement state of one returned promise. -/
inductive Outcome (α : Type) where
  | pending : Outcome α
  | resolved : α → Outcome α
  | rejected : JSVal → Outcome α
  deriving Repr, DecidableEq

/-- Events the engine can deliver to the handlers a method wires: success
or error of the individual request, and completion or error of the
enclosing transaction. -/
inductive Ev where
  | reqSuccess : Ev
  | reqError : JSVal → Ev
  | txComplete : Ev
  | txError : JSVal → Ev
  deriving Repr, DecidableEq

/-- A promise settles at the first delivered event that its wired
handlers react to; later resolve or reject calls are ignored, and a
promise whose handlers never fire stays pending. -/
def settle {α : Type} (h : Ev → Option (Outcome α)) : List Ev → Outcome α
  | [] => Outcome.pending
  | e :: es =>
    match h e with
    | some o => o
    | none => settle h es

/-- Outcome of the single read request issued by `get` or `getAll`. -/
inductive ReqOutcome (α : Type) where
  | ok : α → ReqOutcome α
  | err : JSVal → ReqOutcome α
  deriving Repr, DecidableEq

/-- Outcome of an enclosing read-write transaction. -/
inductive TxOutcome where
  | complete : TxOutcome
  | error : JSVal → TxOutcome
  deriving Repr, DecidableEq

/-- Presence flags for the optional lifecycle hooks of the handle. -/
structure Handlers where
  onBlocked : Bool := false
  onVersionChange : Bool := false
  onError : Bool := false
  deriving Repr, DecidableEq

/-- The fields of a `WebDB` instance; `db` is the connection reference,
absent until an open-handshake continuation assigns it.  The database
contents behind the connection are modelled separately as a `DBState`. -/
structure WebDBHandle where
  name : String
  version : Nat
  setup : Option WebDBSetupOptions := none
  handlers : Option Handlers := none
  db : Option Unit := none
  deriving Repr, DecidableEq

/-- Transaction modes. -/
inductive TxMode where
  | readonly : TxMode
  | readwrite : TxMode
  deriving Repr, DecidableEq

/-- The store-names argument of `transaction` and `clear`: a single name
or an array of names. -/
inductive StoreNamesArg where
  | one : String → StoreNamesArg
  | many : List String → StoreNamesArg
  deriving Repr, DecidableEq

/-- The list of names denoted by a store-names argument. -/
def argNames : StoreNamesArg → List String
  | StoreNamesArg.one n => [n]
  | StoreNamesArg.many l => l

/-- What one method invocation does, observably: how its returned promise
settles, the handle afterwards, the engine contents afterwards, the
transaction it obtained (scope and mode) if one was created, and whether
it issued a request against a store. -/
structure RunResult (α : Type) where
  outcome : Outcome α
  handle : WebDBHandle
  engine : DBState
  txRequest : Option (List String × TxMode) := none
  requestIssued : Bool := false
  deriving Repr, DecidableEq

/-- The Error object `transaction` rejects with when `this.db` is still
undefined (src/db.ts line 101). -/
def unresolvedTransactionError : JSVal :=
  JSVal.err "Couldn\x27t resolve the transaction"

/-- The `onupgradeneeded` continuation (src/db.ts lines 33 to 54):
assigns `this.db` from the open request and applies the declared
schema. -/
def onUpgradeNeededCont (h : WebDBHandle) (d : DBState) :
    WebDBHandle × DBState :=
  ({ h with db := some () }, handleUpgradeNeeded h.setup d)

/-- The `onsuccess` continuation (src/db.ts lines 56 to 71): assigns
`this.db` from the open request. -/
def onSuccessCont (h : WebDBHandle) : WebDBHandle :=
  { h with db := some () }

/-- Observable effects of running the constructor: whether the open
request was issued and which continuations were wired. -/
structure ConstructEffects where
  openRequested : Bool
  upgradeWired : Bool
  successWired : Bool
  blockedWired : Bool
  errorWired : Bool
  deriving Repr, DecidableEq

/-- Constructor effects when nothing was run. -/
def noConstructEffects : ConstructEffects :=
  ⟨false, false, false, false, false⟩

/-- The `WebDB` constructor (src/db.ts lines 10 to 31): throws when the
environment lacks indexedDB support; otherwise issues the open request
and wires the upgrade and success continuations unconditionally and the
blocked and error continuations only when the corresponding hook is
present. -/
def WebDBConstruct (indexedDBSupported : Bool) (name : String)
    (version : Nat) (setup : Option WebDBSetupOptions)
    (handlers : Option Handlers) :
    Except String WebDBHandle × ConstructEffects :=
  if !indexedDBSupported then
    (Except.error "No support for indexedDB!", noConstructEffects)
  else
    (Except.ok
      { name := name, version := version, setup := setup,
        handlers := handlers, db := none },
     { openRequested := true,
       upgradeWired := true,
       successWired := true,
       blockedWired := (handlers.map (fun hs => hs.onBlocked)).getD false,
       errorWired := (handlers.map (fun hs => hs.onError)).getD false })

namespace DbTs

/-- How the read-request handlers of `get` in src/db.ts settle its
promise (lines 120 to 121): request success resolves with the result and
request error rejects with undefined. -/
def getSettle (ro : ReqOutcome JSVal) : Outcome JSVal :=
  match ro with
  | ReqOutcome.ok v => Outcome.resolved v
  | ReqOutcome.err _ => Outcome.rejected JSVal.undef

/-- How the read-request handlers of `getAll` in src/db.ts settle its
promise (lines 140 to 141): like `get`, rejecting with undefined. -/
def getAllSettle (ro : ReqOutcome (List JSVal)) : Outcome (List JSVal) :=
  match ro with
  | ReqOutcome.ok vs => Outcome.resolved vs
  | ReqOutcome.err _ => Outcome.rejected JSVal.undef

/-- `WebDB.transaction` of src/db.ts (lines 93 to 103): with no attached
connection the optional chain yields undefined and the promise rejects
with the unresolved-transaction Error; otherwise the engine creates the
transaction (throwing a NotFoundError inside the executor, hence a
rejection, when a scoped store does not exist). -/
def transaction (h : WebDBHandle) (d : DBState) (arg : StoreNamesArg)
    (mode : TxMode) : RunResult Unit :=
  let core : Outcome Unit × Option (List String × TxMode) :=
    match h.db with
    | none => (Outcome.rejected unresolvedTransactionError, none)
    | some _ =>
      if (argNames arg).all (containsStore d) then
        (Outcome.resolved (), some (argNames arg, mode))
      else (Outcome.rejected (JSVal.dom "NotFoundError"), none)
  { outcome := core.1, handle := h, engine := d, txRequest := core.2,
    requestIssued := false }

/-- `WebDB.get` of src/db.ts (lines 108 to 123).  The awaited transaction
rejection propagates out of the async body; a missing store or a missing
index makes the synchronous engine lookup throw inside the async body, so
the promise rejects with the NotFoundError before any read request is
issued; otherwise the read request is issued and the promise settles per
`getSettle` on the request outcome delivered by the engine. -/
def get (h : WebDBHandle) (d : DBState) (store : String) (query : Key)
    (index : Option String) (ro : ReqOutcome JSVal) : RunResult JSVal :=
  let core : Outcome JSVal × Option (List String × TxMode) × Bool :=
    match h.db with
    | none => (Outcome.rejected unresolvedTransactionError, none, false)
    | some _ =>
      match d.lookup store with
      | none => (Outcome.rejected (JSVal.dom "NotFoundError"), none, false)
      | some st =>
        match index with
        | some iname =>
          if hasIndex st iname then
            (getSettle ro, some ([store], TxMode.readonly), true)
          else
            (Outcome.rejected (JSVal.dom "NotFoundError"),
             some ([store], TxMode.readonly), false)
        | none => (getSettle ro, some ([store], TxMode.readonly), true)
  { outcome := core.1, handle := h, engine := d, txRequest := core.2.1,
    requestIssued := core.2.2 }

/-- `WebDB.getAll` of src/db.ts (lines 128 to 143); the query is
optional, everything else has the same shape as `get`. -/
def getAll (h : WebDBHandle) (d : DBState) (store : String)
    (query : Option Key) (index : Option String)
    (ro : ReqOutcome (List JSVal)) : RunResult (List JSVal) :=
  let core : Outcome (List JSVal) × Option (List String × TxMode) × Bool :=
    match h.db with
    | none => (Outcome.rejected unresolvedTransactionError, none, false)
    | some _ =>
      match d.lookup store with
      | none => (Outcome.rejected (JSVal.dom "NotFoundError"), none, false)
      | some st =>
        match index with
        | some iname =>
          if hasIndex st iname then
            (getAllSettle ro, some ([store], TxMode.readonly), true)
          else
            (Outcome.rejected (JSVal.dom "NotFoundError"),
             some ([store], TxMode.readonly), false)
        | none => (getAllSettle ro, some ([store], TxMode.readonly), true)
  { outcome := core.1, handle := h, engine := d, txRequest := core.2.1,
    requestIssued := core.2.2 }

/-- The transaction-level handlers `add` of src/db.ts wires (lines 160 to
161): oncomplete resolves with the key of the insert request, onerror
rejects with false; request-level events have no handler. -/
def addTxOnEvent (k : Key) : Ev → Option (Outcome Key)
  | Ev.txComplete => some (Outcome.resolved k)
  | Ev.txError _ => some (Outcome.rejected (JSVal.bool false))
  | _ => none

/-- The transaction-level handlers `put` of src/db.ts wires (lines 180 to
181), the same wiring as `add`. -/
def putTxOnEvent (k : Key) : Ev → Option (Outcome Key)
  | Ev.txComplete => some (Outcome.resolved k)
  | Ev.txError _ => some (Outcome.rejected (JSVal.bool false))
  | _ => none

/-- `WebDB.add` of src/db.ts (lines 149 to 163).  The transaction is
awaited inside a `new Promise(async executor)`: when that await rejects
(no attached connection, or a missing store), the rejection is swallowed
by the executor and the outer promise never settles.  Otherwise the
insert request is issued; a constraint violation aborts the transaction
and the onerror handler rejects with false, and on commit the oncomplete
handler resolves with the used key. -/
def add (h : WebDBHandle) (d : DBState) (store : String) (v : JSVal)
    (key : Option Key) : RunResult Key :=
  let core : Outcome Key × DBState × Option (List String × TxMode) × Bool :=
    match h.db with
    | none => (Outcome.pending, d, none, false)
    | some _ =>
      match d.lookup store with
      | none => (Outcome.pending, d, none, false)
      | some st =>
        match storeAddReq st v key with
        | Except.error _ =>
          (Outcome.rejected (JSVal.bool false), d,
           some ([store], TxMode.readwrite), true)
        | Except.ok (st2, k) =>
          (Outcome.resolved k, updateStore d store (fun _ => st2),
           some ([store], TxMode.readwrite), true)
  { outcome := core.1, handle := h, engine := core.2.1,
    txRequest := core.2.2.1, requestIssued := core.2.2.2 }

/-- `WebDB.put` of src/db.ts (lines 169 to 183): same structure as `add`
with the replacing engine request. -/
def put (h : WebDBHandle) (d : DBState) (store : String) (v : JSVal)
    (key : Option Key) : RunResult Key :=
  let core : Outcome Key × DBState × Option (List String × TxMode) × Bool :=
    match h.db with
    | none => (Outcome.pending, d, none, false)
    | some _ =>
      match d.lookup store with
      | none => (Outcome.pending, d, none, false)
      | some st =>
        match storePutReq st v key with
        | (st2, k) =>
          (Outcome.resolved k, updateStore d store (fun _ => st2),
           some ([store], TxMode.readwrite), true)
  { outcome := core.1, handle := h, engine := core.2.1,
    txRequest := core.2.2.1, requestIssued := core.2.2.2 }

/-- The request-level handlers `delete` of src/db.ts wires (lines 213 to
214): onsuccess resolves with true, onerror rejects with false;
transaction-level events have no handler. -/
def deleteOnEvent : Ev → Option (Outcome Bool)
  | Ev.reqSuccess => some (Outcome.resolved true)
  | Ev.reqError _ => some (Outcome.rejected (JSVal.bool false))
  | _ => none

/-- `WebDB.delete` of src/db.ts (lines 204 to 216).  Like `add`, the
transaction is awaited inside a `new Promise(async executor)`, so a
pre-open call leaves the outer promise pending forever; otherwise the
delete request is issued and succeeds (whether or not a record matched),
resolving with true. -/
def delete (h : WebDBHandle) (d : DBState) (store : String) (query : Key) :
    RunResult Bool :=
  let core : Outcome Bool × DBState × Option (List String × TxMode) × Bool :=
    match h.db with
    | none => (Outcome.pending, d, none, false)
    | some _ =>
      match d.lookup store with
      | none => (Outcome.pending, d, none, false)
      | some st =>
        (Outcome.resolved true,
         updateStore d store (fun s => storeDeleteReq s query),
         some ([store], TxMode.readwrite), true)
  { outcome := core.1, handle := h, engine := core.2.1,
    txRequest := core.2.2.1, requestIssued := core.2.2.2 }

/-- The clears issued by `clear` of src/db.ts (lines 191 to 198): with an
array argument each named store is cleared in order, otherwise the single
named store is cleared, all inside one transaction. -/
def clearEffect (d : DBState) (arg : StoreNamesArg) : DBState :=
  match arg with
  | StoreNamesArg.many names =>
    names.foldl (fun acc n => updateStore acc n clearStore) d
  | StoreNamesArg.one n => updateStore d n clearStore

/-- `WebDB.clear` of src/db.ts (lines 188 to 199): the transaction is
awaited directly in the async body, so a pre-open call rejects with the
unresolved-transaction Error; otherwise the clears are issued and the
async method returns, resolving the promise with undefined without
wiring any handler to the transaction outcome. -/
def clear (h : WebDBHandle) (d : DBState) (arg : StoreNamesArg)
    (txo : TxOutcome) : RunResult JSVal :=
  let core : Outcome JSVal × DBState × Option (List String × TxMode) × Bool :=
    match h.db with
    | none => (Outcome.rejected unresolvedTransactionError, d, none, false)
    | some _ =>
      if (argNames arg).all (containsStore d) then
        (Outcome.resolved JSVal.undef, clearEffect d arg,
         some (argNames arg, TxMode.readwrite), true)
      else (Outcome.rejected (JSVal.dom "NotFoundError"), d, none, false)
  { outcome := core.1, handle := h, engine := core.2.1,
    txRequest := core.2.2.1, requestIssued := core.2.2.2 }

end DbTs

namespace Part000

/-- How the read-request handlers of `get` in part_000 settle its promise
(lines 120 to 121): request success resolves with the result and request
error rejects with the error of the request. -/
def getSettle (ro : ReqOutcome JSVal) : Outcome JSVal :=
  match ro with
  | ReqOutcome.ok v => Outcome.resolved v
  | ReqOutcome.err e => Outcome.rejected e

/-- How the read-request handlers of `getAll` in part_000 settle its
promise (lines 140 to 141): like `get`, rejecting with the error of the
request. -/
def getAllSettle (ro : ReqOutcome (List JSVal)) : Outcome (List JSVal) :=
  match ro with
  | ReqOutcome.ok vs => Outcome.resolved vs
  | ReqOutcome.err e => Outcome.rejected e

/-- `WebDB.transaction` of part_000 (lines 93 to 103), identical to the
src/db.ts version. -/
def transaction (h : WebDBHandle) (d : DBState) (arg : StoreNamesArg)
    (mode : TxMode) : RunResult Unit :=
  let core : Outcome Unit × Option (List String × TxMode) :=
    match h.db with
    | none => (Outcome.rejected unresolvedTransactionError, none)
    | some _ =>
      if (argNames arg).all (containsStore d) then
        (Outcome.resolved (), some (argNames arg, mode))
      else (Outcome.rejected (JSVal.dom "NotFoundError"), none)
  { outcome := core.1, handle := h, engine := d, txRequest := core.2,
    requestIssued := false }

/-- `WebDB.get` of part_000 (lines 108 to 123): the same shape as the
src/db.ts version, with the rejection carrying the request error. -/
def get (h : WebDBHandle) (d : DBState) (store : String) (query : Key)
    (index : Option String) (ro : ReqOutcome JSVal) : RunResult JSVal :=
  let core : Outcome JSVal × Option (List String × TxMode) × Bool :=
    match h.db with
    | none => (Outcome.rejected unresolvedTransactionError, none, false)
    | some _ =>
      match d.lookup store with
      | none => (Outcome.rejected (JSVal.dom "NotFoundError"), none, false)
      | some st =>
        match index with
        | some iname =>
          if hasIndex st iname then
            (getSettle ro, some ([store], TxMode.readonly), true)
          else
            (Outcome.rejected (JSVal.dom "NotFoundError"),
             some ([store], TxMode.readonly), false)
        | none => (getSettle ro, some ([store], TxMode.readonly), true)
  { outcome := core.1, handle := h, engine := d, txRequest := core.2.1,
    requestIssued := core.2.2 }

/-- `WebDB.getAll` of part_000 (lines 128 to 143). -/
def getAll (h : WebDBHandle) (d : DBState) (store : String)
    (query : Option Key) (index : Option String)
    (ro : ReqOutcome (List JSVal)) : RunResult (List JSVal) :=
  let core : Outcome (List JSVal) × Option (List String × TxMode) × Bool :=
    match h.db with
    | none => (Outcome.rejected unresolvedTransactionError, none, false)
    | some _ =>
      match d.lookup store with
      | none => (Outcome.rejected (JSVal.dom "NotFoundError"), none, false)
      | some st =>
        match index with
        | some iname =>
          if hasIndex st iname then
            (getAllSettle ro, some ([store], TxMode.readonly), true)
          else
            (Outcome.rejected (JSVal.dom "NotFoundError"),
             some ([store], TxMode.readonly), false)
        | none => (getAllSettle ro, some ([store], TxMode.readonly), true)
  { outcome := core.1, handle := h, engine := d, txRequest := core.2.1,
    requestIssued := core.2.2 }

/-- The transaction-level handlers `add` of part_000 wires (lines 160 to
161): oncomplete resolves with the key, onerror rejects with the
transaction error. -/
def addTxOnEvent (k : Key) : Ev → Option (Outcome Key)
  | Ev.txComplete => some (Outcome.resolved k)
  | Ev.txError e => some (Outcome.rejected e)
  | _ => none

/-- The transaction-level handlers `put` of part_000 wires (lines 180 to
181), the same wiring as `add`. -/
def putTxOnEvent (k : Key) : Ev → Option (Outcome Key)
  | Ev.txComplete => some (Outcome.resolved k)
  | Ev.txError e => some (Outcome.rejected e)
  | _ => none

/-- `WebDB.add` of part_000 (lines 149 to 163): like the src/db.ts
version (including the swallowed pre-open rejection), but a transaction
error rejects with the transaction error object, which for a constraint
violation is the error of the failed insert request. -/
def add (h : WebDBHandle) (d : DBState) (store : String) (v : JSVal)
    (key : Option Key) : RunResult Key :=
  let core : Outcome Key × DBState × Option (List String × TxMode) × Bool :=
    match h.db with
    | none => (Outcome.pending, d, none, false)
    | some _ =>
      match d.lookup store with
      | none => (Outcome.pending, d, none, false)
      | some st =>
        match storeAddReq st v key with
        | Except.error e =>
          (Outcome.rejected e, d, some ([store], TxMode.readwrite), true)
        | Except.ok (st2, k) =>
          (Outcome.resolved k, updateStore d store (fun _ => st2),
           some ([store], TxMode.readwrite), true)
  { outcome := core.1, handle := h, engine := core.2.1,
    txRequest := core.2.2.1, requestIssued := core.2.2.2 }

/-- `WebDB.put` of part_000 (lines 169 to 183). -/
def put (h : WebDBHandle) (d : DBState) (store : String) (v : JSVal)
    (key : Option Key) : RunResult Key :=
  let core : Outcome Key × DBState × Option (List String × TxMode) × Bool :=
    match h.db with
    | none => (Outcome.pending, d, none, false)
    | some _ =>
      match d.lookup store with
      | none => (Outcome.pending, d, none, false)
      | some st =>
        match storePutReq st v key with
        | (st2, k) =>
          (Outcome.resolved k, updateStore d store (fun _ => st2),
           some ([store], TxMode.readwrite), true)
  { outcome := core.1, handle := h, engine := core.2.1,
    txRequest := core.2.2.1, requestIssued := core.2.2.2 }

/-- The request-level handlers `delete` of part_000 wires (lines 219 to
220): onsuccess resolves with true, onerror rejects with the request
error. -/
def deleteOnEvent : Ev → Option (Outcome Bool)
  | Ev.reqSuccess => some (Outcome.resolved true)
  | Ev.reqError e => some (Outcome.rejected e)
  | _ => none

/-- `WebDB.delete` of part_000 (lines 210 to 222): like the src/db.ts
version, including the swallowed pre-open rejection. -/
def delete (h : WebDBHandle) (d : DBState) (store : String) (query : Key) :
    RunResult Bool :=
  let core : Outcome Bool × DBState × Option (List String × TxMode) × Bool :=
    match h.db with
    | none => (Outcome.pending, d, none, false)
    | some _ =>
      match d.lookup store with
      | none => (Outcome.pending, d, none, false)
      | some st =>
        (Outcome.resolved true,
         updateStore d store (fun s => storeDeleteReq s query),
         some ([store], TxMode.readwrite), true)
  { outcome := core.1, handle := h, engine := core.2.1,
    txRequest := core.2.2.1, requestIssued := core.2.2.2 }

/-- The clears issued by `clear` of part_000 (lines 193 to 200),
structurally the same loop as the src/db.ts version. -/
def clearEffect (d : DBState) (arg : StoreNamesArg) : DBState :=
  match arg with
  | StoreNamesArg.many names =>
    names.foldl (fun acc n => updateStore acc n clearStore) d
  | StoreNamesArg.one n => updateStore d n clearStore

/-- `WebDB.clear` of part_000 (lines 189 to 205): the transaction is
awaited inside a `new Promise(async executor)`, so a pre-open call
leaves the promise pending forever; otherwise the clears are issued and
the transaction-level handlers resolve with true on commit and reject
with the transaction error on error. -/
def clear (h : WebDBHandle) (d : DBState) (arg : StoreNamesArg)
    (txo : TxOutcome) : RunResult Bool :=
  let core : Outcome Bool × DBState × Option (List String × TxMode) × Bool :=
    match h.db with
    | none => (Outcome.pending, d, none, false)
    | some _ =>
      if (argNames arg).all (containsStore d) then
        (match txo with
         | TxOutcome.complete => Outcome.resolved true
         | TxOutcome.error e => Outcome.rejected e,
         clearEffect d arg, some (argNames arg, TxMode.readwrite), true)
      else (Outcome.pending, d, none, false)
  { outcome := core.1, handle := h, engine := core.2.1,
    txRequest := core.2.2.1, requestIssued := core.2.2.2 }

end Part000

/-! ### Concrete fixtures used by closed theorems -/

/-- A handle fresh from the constructor: the connection not yet
attached. -/
def h0 : WebDBHandle := { name := "db", version := 1 }

/-- The same handle after a handshake continuation attached the
connection. -/
def hOpen : WebDBHandle := { name := "db", version := 1, db := some () }

/-- An empty object store without indexes. -/
def st0 : ObjectStoreState := {}

/-- A database holding the single store "s". -/
def d0 : DBState := [("s", st0)]

/-! ### Helper lemmas about lookups -/

theorem lookup_append_or {α β : Type} [BEq α] (l1 l2 : List (α × β)) (k : α) :
    (l1 ++ l2).lookup k = (l1.lookup k).or (l2.lookup k) := by
  induction l1 with
  | nil => simp [List.lookup]
  | cons p t ih =>
    obtain ⟨a, c⟩ := p
    cases hba : (k == a) <;> simp [List.lookup, hba, ih]

theorem lookup_delete_self (d : DBState) (n : String) :
    (deleteObjectStore d n).lookup n = none := by
  induction d with
  | nil => simp [deleteObjectStore]
  | cons p t ih =>
    obtain ⟨a, st⟩ := p
    by_cases han : a = n
    · subst han
      simpa [deleteObjectStore, List.filter_cons] using ih
    · have hbne : (a != n) = true := bne_iff_ne.mpr han
      have hne : (n == a) = false := by
        simp only [beq_eq_false_iff_ne, ne_eq]
        exact fun h => han h.symm
      simp [deleteObjectStore, List.filter_cons, hbne, List.lookup, hne]
      simpa [deleteObjectStore] using ih

theorem lookup_delete_ne (d : DBState) (n m : String) (hmn : m ≠ n) :
    (deleteObjectStore d n).lookup m = d.lookup m := by
  induction d with
  | nil => simp [deleteObjectStore]
  | cons p t ih =>
    obtain ⟨a, st⟩ := p
    by_cases han : a = n
    · subst han
      have hma : (m == a) = false := by simp [hmn]
      simp [deleteObjectStore, List.filter_cons, List.lookup, hma]
      simpa [deleteObjectStore] using ih
    · have hbne : (a != n) = true := bne_iff_ne.mpr han
      by_cases hma : m = a
      · subst hma
        simp [deleteObjectStore, List.filter_cons, hbne, List.lookup]
      · have hma2 : (m == a) = false := by simp [hma]
        simp [deleteObjectStore, List.filter_cons, hbne, List.lookup, hma2]
        simpa [deleteObjectStore] using ih

theorem containsStore_delete_self (d : DBState) (n : String) :
    containsStore (deleteObjectStore d n) n = false := by
  simp [containsStore, lookup_delete_self]

/-! ### C1 -/

/-- C1: evaluation of every operation method on a handle whose `db` is
still undefined.  `transaction`, `get`, `getAll` and the src/db.ts
`clear` reject with the unresolved-transaction Error, but `add`, `put`
and `delete` of both versions and the part_000 `clear` await the
rejected transaction inside a `new Promise(async executor)`, so their
returned promises never settle, contradicting the claim that every
operation rejects rather than remaining forever unsettled. -/
theorem preOpen_settlement_bug :
    (DbTs.transaction h0 d0 (StoreNamesArg.one "s") TxMode.readonly).outcome
      = Outcome.rejected unresolvedTransactionError
  ∧ (DbTs.get h0 d0 "s" 1 none (ReqOutcome.ok (JSVal.str "a"))).outcome
      = Outcome.rejected unresolvedTransactionError
  ∧ (DbTs.getAll h0 d0 "s" none none (ReqOutcome.ok [])).outcome
      = Outcome.rejected unresolvedTransactionError
  ∧ (DbTs.clear h0 d0 (StoreNamesArg.one "s") TxOutcome.complete).outcome
      = Outcome.rejected unresolvedTransactionError
  ∧ (Part000.transaction h0 d0 (StoreNamesArg.one "s") TxMode.readonly).outcome
      = Outcome.rejected unresolvedTransactionError
  ∧ (Part000.get h0 d0 "s" 1 none (ReqOutcome.ok (JSVal.str "a"))).outcome
      = Outcome.rejected unresolvedTransactionError
  ∧ (Part000.getAll h0 d0 "s" none none (ReqOutcome.ok [])).outcome
      = Outcome.rejected unresolvedTransactionError
  ∧ (DbTs.add h0 d0 "s" (JSVal.str "a") none).outcome = Outcome.pending
  ∧ (DbTs.put h0 d0 "s" (JSVal.str "a") none).outcome = Outcome.pending
  ∧ (DbTs.delete h0 d0 "s" 1).outcome = Outcome.pending
  ∧ (Part000.add h0 d0 "s" (JSVal.str "a") none).outcome = Outcome.pending
  ∧ (Part000.put h0 d0 "s" (JSVal.str "a") none).outcome = Outcome.pending
  ∧ (Part000.delete h0 d0 "s" 1).outcome = Outcome.pending
  ∧ (Part000.clear h0 d0 (StoreNamesArg.one "s") TxOutcome.complete).outcome
      = Outcome.pending :=
  ⟨rfl, rfl, rfl, rfl, rfl, rfl, rfl, rfl, rfl, rfl, rfl, rfl, rfl, rfl⟩

/-! ### C2 -/

/-- C2 counterexample: in the src/db.ts version a failing read request
makes `get` reject with undefined, not with the error object the request
carries. -/
theorem get_error_rejection_cex :
    (DbTs.get hOpen d0 "s" 1 none
        (ReqOutcome.err (JSVal.dom "AbortError"))).outcome
      ≠ Outcome.rejected (JSVal.dom "AbortError")
  ∧ (DbTs.get hOpen d0 "s" 1 none
        (ReqOutcome.err (JSVal.dom "AbortError"))).outcome
      = Outcome.rejected JSVal.undef :=
  ⟨by decide, rfl⟩

/-- C2 amended: when the underlying read request errors, the part_000
versions of `get` and `getAll` reject with the error of the request,
while the src/db.ts versions reject with undefined; within each version
`get` and `getAll` fail identically. -/
theorem read_error_rejection_by_version (h : WebDBHandle) (d : DBState)
    (store : String) (q : Key) (qopt : Option Key) (st : ObjectStoreState)
    (e : JSVal) (hdb : h.db = some ()) (hs : d.lookup store = some st) :
    (Part000.get h d store q none (ReqOutcome.err e)).outcome
      = Outcome.rejected e
  ∧ (Part000.getAll h d store qopt none (ReqOutcome.err e)).outcome
      = Outcome.rejected e
  ∧ (DbTs.get h d store q none (ReqOutcome.err e)).outcome
      = Outcome.rejected JSVal.undef
  ∧ (DbTs.getAll h d store qopt none (ReqOutcome.err e)).outcome
      = Outcome.rejected JSVal.undef := by
  refine ⟨?_, ?_, ?_, ?_⟩ <;>
    simp [Part000.get, Part000.getAll, DbTs.get, DbTs.getAll, hdb, hs,
      Part000.getSettle, Part000.getAllSettle, DbTs.getSettle,
      DbTs.getAllSettle]

/-- C2 witness: the amended statement evaluated at a concrete open
handle, store and request error. -/
theorem read_error_rejection_by_version_witness :
    hOpen.db = some () ∧ d0.lookup "s" = some st0
  ∧ (Part000.get hOpen d0 "s" 1 none
        (ReqOutcome.err (JSVal.dom "DataError"))).outcome
      = Outcome.rejected (JSVal.dom "DataError") := by
  have h := read_error_rejection_by_version hOpen d0 "s" 1 none st0
    (JSVal.dom "DataError") rfl rfl
  exact ⟨rfl, rfl, h.1⟩

/-! ### More helper lemmas -/

theorem foldl_append_singleton {α : Type} (l acc : List α) :
    l.foldl (fun a x => a ++ [x]) acc = acc ++ l := by
  induction l generalizing acc with
  | nil => simp
  | cons x t ih => simp [List.foldl_cons, ih]

theorem mkStore_indexes (sd : WebDBObjectStore) :
    (mkStore sd).indexes = indexesOf sd := by
  simp [mkStore, foldl_append_singleton]

theorem any_key_of_lookup (l : List (Key × JSVal)) (k : Key) (w : JSVal)
    (hl : l.lookup k = some w) : l.any (fun r => r.1 == k) = true := by
  induction l with
  | nil => simp [List.lookup] at hl
  | cons p t ih =>
    obtain ⟨a, c⟩ := p
    by_cases hka : k = a
    · subst hka; simp [List.any_cons]
    · have hba : (k == a) = false := by simp [hka]
      simp only [List.lookup, hba] at hl
      simp [List.any_cons, ih hl]

theorem lookup_filter_out (l : List (Key × JSVal)) (k : Key) :
    (l.filter (fun r => r.1 != k)).lookup k = none := by
  induction l with
  | nil => simp
  | cons p t ih =>
    obtain ⟨a, c⟩ := p
    by_cases hak : a = k
    · subst hak; simp [List.filter_cons, ih]
    · have h1 : (a != k) = true := bne_iff_ne.mpr hak
      have h2 : (k == a) = false := by
        simp only [beq_eq_false_iff_ne, ne_eq]
        exact fun hh => hak hh.symm
      simp [List.filter_cons, h1, List.lookup, h2, ih]

theorem filter_ne_of_lookup_none (l : List (Key × JSVal)) (q : Key)
    (hl : l.lookup q = none) : l.filter (fun r => r.1 != q) = l := by
  induction l with
  | nil => simp
  | cons p t ih =>
    obtain ⟨a, c⟩ := p
    by_cases hqa : q = a
    · subst hqa; simp [List.lookup] at hl
    · have h1 : (q == a) = false := by simp [hqa]
      have h2 : (a != q) = true := bne_iff_ne.mpr (fun hh => hqa hh.symm)
      simp only [List.lookup, h1] at hl
      simp [List.filter_cons, h2, ih hl]

theorem lookup_updateStore (d : DBState) (nm : String)
    (f : ObjectStoreState → ObjectStoreState) (m : String) :
    (updateStore d nm f).lookup m
      = if m = nm then (d.lookup nm).map f else d.lookup m := by
  induction d with
  | nil => simp [updateStore]
  | cons p t ih =>
    obtain ⟨a, st⟩ := p
    rw [show updateStore ((a, st) :: t) nm f
        = ((if (a == nm) = true then (a, f st) else (a, st))
            :: updateStore t nm f) from rfl]
    by_cases han : a = nm
    · have hb : (a == nm) = true := by simp [han]
      rw [if_pos hb]
      subst han
      by_cases hma : m = a
      · subst hma
        rw [if_pos rfl]
        simp [List.lookup]
      · have hmb : (m == a) = false := by simp [hma]
        rw [if_neg hma]
        simp only [List.lookup, hmb]
        rw [ih, if_neg hma]
    · have hb : (a == nm) = false := by simp [han]
      rw [if_neg (show ¬(a == nm) = true by simp [hb])]
      by_cases hma : m = a
      · subst hma
        have hmn : ¬m = nm := han
        rw [if_neg hmn]
        simp [List.lookup]
      · have hmb : (m == a) = false := by simp [hma]
        simp only [List.lookup, hmb]
        rw [ih]
        by_cases hmn : m = nm
        · subst hmn
          rw [if_pos rfl, if_pos rfl]
          simp only [List.lookup, hmb]
        · rw [if_neg hmn, if_neg hmn]

/-- The schema-level part of a store state: what the connection object
exposes beyond the records (options and index set). -/
def storeSig (st : ObjectStoreState) :
    Option WebDBStoreOptions × List WebDBObjectStoreIndex :=
  (st.options, st.indexes)

theorem updateStore_sig_pointwise (d : DBState) (nm : String)
    (f : ObjectStoreState → ObjectStoreState)
    (hf : ∀ st, storeSig (f st) = storeSig st) (n : String) :
    ((updateStore d nm f).lookup n).map storeSig
      = (d.lookup n).map storeSig := by
  rw [lookup_updateStore]
  by_cases hn : n = nm
  · subst hn; cases hl : d.lookup n <;> simp [hf]
  · simp [hn]

theorem storeAddReq_sig (st st2 : ObjectStoreState) (v : JSVal)
    (k : Option Key) (kk : Key)
    (h : storeAddReq st v k = Except.ok (st2, kk)) :
    storeSig st2 = storeSig st := by
  simp only [storeAddReq] at h
  by_cases hc : (st.records.any fun r => r.1 == k.getD st.keyGen) = true
  · rw [if_pos hc] at h
    exact absurd h (by simp)
  · rw [if_neg hc] at h
    simp only [Except.ok.injEq, Prod.mk.injEq] at h
    rw [← h.1]
    rfl

theorem storePutReq_sig (st : ObjectStoreState) (v : JSVal) (k : Option Key) :
    storeSig (storePutReq st v k).1 = storeSig st := rfl

theorem upgradeStep_recreate (d : DBState) (sd : WebDBObjectStore)
    (hrec : recreateOf sd = true) (hcon : containsStore d sd.name = true) :
    upgradeStep d sd = deleteObjectStore d sd.name ++ [(sd.name, mkStore sd)] := by
  simp [upgradeStep, hrec, hcon, containsStore_delete_self]

theorem upgradeStep_create (d : DBState) (sd : WebDBObjectStore)
    (hcon : containsStore d sd.name = false) :
    upgradeStep d sd = d ++ [(sd.name, mkStore sd)] := by
  simp [upgradeStep, hcon]

theorem upgradeStep_skip (d : DBState) (sd : WebDBObjectStore)
    (hcon : containsStore d sd.name = true) (hrec : recreateOf sd = false) :
    upgradeStep d sd = d := by
  simp [upgradeStep, hrec, hcon]

/-! ### C3 -/

/-- C3: one iteration of the upgrade loop, exactly as the claim orders
it: a store marked recreate that already exists is deleted first and then
recreated; a store that does not exist is created, carrying the declared
options and the declared indexes and no records; an existing store not
marked recreate is left untouched; and the schema application is the fold
of these iterations over the descriptors in declaration order. -/
theorem upgradeStep_spec (d : DBState) (sd : WebDBObjectStore)
    (l : List WebDBObjectStore) :
    (recreateOf sd = true → containsStore d sd.name = true →
      upgradeStep d sd
        = deleteObjectStore d sd.name ++ [(sd.name, mkStore sd)])
  ∧ (containsStore d sd.name = false →
      upgradeStep d sd = d ++ [(sd.name, mkStore sd)])
  ∧ (containsStore d sd.name = true → recreateOf sd = false →
      upgradeStep d sd = d)
  ∧ (mkStore sd).options = sd.options
  ∧ (mkStore sd).indexes = indexesOf sd
  ∧ (mkStore sd).records = []
  ∧ handleUpgradeNeeded (some { objectStores := some l }) d
      = l.foldl upgradeStep d :=
  ⟨fun hrec hcon => upgradeStep_recreate d sd hrec hcon,
   fun hcon => upgradeStep_create d sd hcon,
   fun hcon hrec => upgradeStep_skip d sd hcon hrec,
   rfl, mkStore_indexes sd, rfl, rfl⟩

/-- A store descriptor marked recreate, used by witnesses. -/
def sdR : WebDBObjectStore :=
  { name := "s", configs := some { recreate := true } }

/-- C3 witness: the recreate branch taken at a concrete database that
already contains the declared store. -/
theorem upgradeStep_spec_witness :
    recreateOf sdR = true ∧ containsStore d0 sdR.name = true
  ∧ upgradeStep d0 sdR
      = deleteObjectStore d0 sdR.name ++ [(sdR.name, mkStore sdR)] := by
  have h := upgradeStep_spec d0 sdR []
  exact ⟨rfl, by decide, h.1 rfl (by decide)⟩

/-! ### C4 -/

/-- C4: add and put settle at transaction level: a request success event
alone settles nothing, the transaction completion event resolves with the
used key, and the transaction error event rejects; put wires exactly the
same settlement as add; the two differ only in the engine request, which
for add fails with a ConstraintError on an existing key and for put
replaces the record under it; and on an open handle the full calls
resolve with the used key on commit and reject at transaction level. -/
theorem add_put_commit_level (k kk : Key) (evs : List Ev) (e : JSVal)
    (ev : Ev) (st st2 : ObjectStoreState) (v w : JSVal) (kOpt : Option Key)
    (h : WebDBHandle) (d : DBState) (store : String) :
    settle (DbTs.addTxOnEvent k) (Ev.reqSuccess :: evs)
      = settle (DbTs.addTxOnEvent k) evs
  ∧ settle (DbTs.addTxOnEvent k) [Ev.reqSuccess] = Outcome.pending
  ∧ settle (DbTs.addTxOnEvent k) (Ev.txComplete :: evs) = Outcome.resolved k
  ∧ settle (DbTs.addTxOnEvent k) (Ev.txError e :: evs)
      = Outcome.rejected (JSVal.bool false)
  ∧ DbTs.putTxOnEvent k ev = DbTs.addTxOnEvent k ev
  ∧ (st.records.lookup kk = some w →
      storeAddReq st v (some kk) = Except.error (JSVal.dom "ConstraintError"))
  ∧ (storePutReq st v (some kk)).1.records.lookup kk = some v
  ∧ (h.db = some () → d.lookup store = some st →
      storeAddReq st v kOpt = Except.ok (st2, kk) →
      (DbTs.add h d store v kOpt).outcome = Outcome.resolved kk
      ∧ (DbTs.add h d store v kOpt).engine
          = updateStore d store (fun _ => st2))
  ∧ (h.db = some () → d.lookup store = some st →
      storeAddReq st v kOpt = Except.error e →
      (DbTs.add h d store v kOpt).outcome
        = Outcome.rejected (JSVal.bool false))
  ∧ (h.db = some () → d.lookup store = some st →
      (DbTs.put h d store v kOpt).outcome
        = Outcome.resolved (storePutReq st v kOpt).2
      ∧ (DbTs.put h d store v kOpt).engine
          = updateStore d store (fun _ => (storePutReq st v kOpt).1)) := by
  refine ⟨rfl, rfl, rfl, rfl, ?_, ?_, ?_, ?_, ?_, ?_⟩
  · cases ev <;> rfl
  · intro hlk
    simp [storeAddReq, any_key_of_lookup st.records kk w hlk]
  · simp [storePutReq, lookup_append_or, lookup_filter_out, List.lookup]
  · intro hdb hs hadd
    constructor <;> simp [DbTs.add, hdb, hs, hadd]
  · intro hdb hs hadd
    simp [DbTs.add, hdb, hs, hadd]
  · intro hdb hs
    constructor <;> simp [DbTs.put, hdb, hs]

/-- A store holding one record under key 1, used by witnesses. -/
def stA : ObjectStoreState := { records := [(1, JSVal.str "a")] }

/-- C4 witness: the engine contrast and the commit-level resolution
evaluated at a concrete store that already holds key 1. -/
theorem add_put_commit_level_witness :
    stA.records.lookup 1 = some (JSVal.str "a")
  ∧ storeAddReq stA (JSVal.str "b") (some 1)
      = Except.error (JSVal.dom "ConstraintError")
  ∧ hOpen.db = some ()
  ∧ (DbTs.put hOpen [("s", stA)] "s" (JSVal.str "b") (some 1)).outcome
      = Outcome.resolved (storePutReq stA (JSVal.str "b") (some 1)).2
  ∧ settle (DbTs.addTxOnEvent 1) [Ev.txComplete] = Outcome.resolved 1 := by
  have h := add_put_commit_level 1 1 [] (JSVal.dom "x") Ev.txComplete stA stA
    (JSVal.str "b") (JSVal.str "a") (some 1) hOpen [("s", stA)] "s"
  refine ⟨rfl, h.2.2.2.2.2.1 rfl, rfl, ?_, h.2.2.1⟩
  exact (h.2.2.2.2.2.2.2.2.2 rfl rfl).1

/-! ### C5 -/

theorem settle_delete_rejected_mem (evs : List Ev) (x : JSVal)
    (hr : settle DbTs.deleteOnEvent evs = Outcome.rejected x) :
    ∃ e, Ev.reqError e ∈ evs := by
  induction evs with
  | nil => simp [settle] at hr
  | cons ev t ih =>
    cases ev with
    | reqSuccess => simp [settle, DbTs.deleteOnEvent] at hr
    | reqError e => exact ⟨e, List.mem_cons_self _ _⟩
    | txComplete =>
      obtain ⟨e, he⟩ := ih (by simpa [settle, DbTs.deleteOnEvent] using hr)
      exact ⟨e, List.mem_cons_of_mem _ he⟩
    | txError e2 =>
      obtain ⟨e, he⟩ := ih (by simpa [settle, DbTs.deleteOnEvent] using hr)
      exact ⟨e, List.mem_cons_of_mem _ he⟩

/-- C5: delete settles at request level: the request success event alone
resolves with true whatever comes later, a transaction completion event
settles nothing by itself, a rejection can only come from a request error
event, the engine delete request leaves the store unchanged when no
record matches, and on an open handle the full call resolves with true
and removes any matching record. -/
theorem delete_request_level (evs : List Ev) (st : ObjectStoreState)
    (q : Key) (h : WebDBHandle) (d : DBState) (store : String) :
    settle DbTs.deleteOnEvent (Ev.reqSuccess :: evs) = Outcome.resolved true
  ∧ settle DbTs.deleteOnEvent (Ev.txComplete :: evs)
      = settle DbTs.deleteOnEvent evs
  ∧ settle DbTs.deleteOnEvent [Ev.txComplete] = Outcome.pending
  ∧ (∀ evs2 x, settle DbTs.deleteOnEvent evs2 = Outcome.rejected x →
      ∃ e, Ev.reqError e ∈ evs2)
  ∧ (st.records.lookup q = none → storeDeleteReq st q = st)
  ∧ (h.db = some () → d.lookup store = some st →
      (DbTs.delete h d store q).outcome = Outcome.resolved true
      ∧ (DbTs.delete h d store q).engine
          = updateStore d store (fun s => storeDeleteReq s q)) := by
  refine ⟨rfl, rfl, rfl, fun evs2 x => settle_delete_rejected_mem evs2 x,
    ?_, ?_⟩
  · intro hl
    unfold storeDeleteReq
    rw [filter_ne_of_lookup_none st.records q hl]
  · intro hdb hs
    constructor <;> simp [DbTs.delete, hdb, hs]

/-- C5 witness: delete of a key absent from the store evaluated
concretely: the request succeeds, the store is unchanged and the call
resolves with true at the request success event. -/
theorem delete_request_level_witness :
    st0.records.lookup 3 = none ∧ storeDeleteReq st0 3 = st0
  ∧ settle DbTs.deleteOnEvent [Ev.reqSuccess, Ev.txError (JSVal.dom "x")]
      = Outcome.resolved true
  ∧ (DbTs.delete hOpen d0 "s" 3).outcome = Outcome.resolved true := by
  have h := delete_request_level [Ev.txError (JSVal.dom "x")] st0 3 hOpen d0 "s"
  exact ⟨rfl, h.2.2.2.2.1 rfl, h.1, (h.2.2.2.2.2 rfl rfl).1⟩

/-! ### C8 -/

/-- C8: in an environment without indexedDB support the constructor
throws the fatal Error synchronously, and neither the open request nor
any continuation wiring happens. -/
theorem construct_unsupported_throws (name : String) (version : Nat)
    (setup : Option WebDBSetupOptions) (handlers : Option Handlers) :
    WebDBConstruct false name version setup handlers
      = (Except.error "No support for indexedDB!", noConstructEffects)
  ∧ noConstructEffects.openRequested = false
  ∧ noConstructEffects.upgradeWired = false
  ∧ noConstructEffects.successWired = false
  ∧ noConstructEffects.blockedWired = false
  ∧ noConstructEffects.errorWired = false :=
  ⟨rfl, rfl, rfl, rfl, rfl, rfl⟩

/-! ### C6 -/

/-- C6: both versions of clear obtain one read-write transaction scoped
to all the named stores and issue the same clears on the engine; they
differ only in settlement: the src/db.ts version resolves with undefined
whatever the transaction outcome, conveying no success or failure of the
clears, while the part_000 version resolves with true on transaction
commit and rejects with the transaction error on transaction error. -/
theorem clear_versions (h : WebDBHandle) (d : DBState)
    (arg : StoreNamesArg) (txo : TxOutcome) (e : JSVal)
    (hdb : h.db = some ())
    (hst : (argNames arg).all (containsStore d) = true) :
    DbTs.clearEffect d arg = Part000.clearEffect d arg
  ∧ (DbTs.clear h d arg txo).engine = (Part000.clear h d arg txo).engine
  ∧ (DbTs.clear h d arg txo).txRequest
      = some (argNames arg, TxMode.readwrite)
  ∧ (Part000.clear h d arg txo).txRequest
      = some (argNames arg, TxMode.readwrite)
  ∧ (DbTs.clear h d arg txo).outcome = Outcome.resolved JSVal.undef
  ∧ (Part000.clear h d arg TxOutcome.complete).outcome
      = Outcome.resolved true
  ∧ (Part000.clear h d arg (TxOutcome.error e)).outcome
      = Outcome.rejected e := by
  have heff : DbTs.clearEffect d arg = Part000.clearEffect d arg := by
    cases arg <;> rfl
  refine ⟨heff, ?_, ?_, ?_, ?_, ?_, ?_⟩ <;>
    simp [DbTs.clear, Part000.clear, hdb, hst, heff]

/-- C6 witness: the two versions evaluated on a concrete open handle and
a single-store database. -/
theorem clear_versions_witness :
    hOpen.db = some ()
  ∧ (argNames (StoreNamesArg.one "s")).all (containsStore d0) = true
  ∧ (DbTs.clear hOpen d0 (StoreNamesArg.one "s") TxOutcome.complete).engine
      = (Part000.clear hOpen d0 (StoreNamesArg.one "s")
          TxOutcome.complete).engine
  ∧ (Part000.clear hOpen d0 (StoreNamesArg.one "s")
        TxOutcome.complete).outcome = Outcome.resolved true
  ∧ (DbTs.clear hOpen d0 (StoreNamesArg.one "s")
        TxOutcome.complete).outcome = Outcome.resolved JSVal.undef := by
  have h := clear_versions hOpen d0 (StoreNamesArg.one "s")
    TxOutcome.complete (JSVal.dom "x") rfl (by decide)
  exact ⟨rfl, by decide, h.2.1, h.2.2.2.2.2.1, h.2.2.2.2.1⟩

/-! ### C10 -/

/-- C10: called with an index name that does not exist on the store, the
synchronous index lookup throws inside the async body of get and getAll,
so the returned promise rejects with the NotFoundError of the engine and
no read request is ever issued against the store; this holds in both
versions. -/
theorem missing_index_rejects (h : WebDBHandle) (d : DBState)
    (store iname : String) (q : Key) (qopt : Option Key)
    (st : ObjectStoreState) (ro : ReqOutcome JSVal)
    (roA : ReqOutcome (List JSVal)) (hdb : h.db = some ())
    (hs : d.lookup store = some st) (hi : hasIndex st iname = false) :
    (DbTs.get h d store q (some iname) ro).outcome
      = Outcome.rejected (JSVal.dom "NotFoundError")
  ∧ (DbTs.get h d store q (some iname) ro).requestIssued = false
  ∧ (DbTs.getAll h d store qopt (some iname) roA).outcome
      = Outcome.rejected (JSVal.dom "NotFoundError")
  ∧ (DbTs.getAll h d store qopt (some iname) roA).requestIssued = false
  ∧ (Part000.get h d store q (some iname) ro).outcome
      = Outcome.rejected (JSVal.dom "NotFoundError")
  ∧ (Part000.get h d store q (some iname) ro).requestIssued = false
  ∧ (Part000.getAll h d store qopt (some iname) roA).outcome
      = Outcome.rejected (JSVal.dom "NotFoundError")
  ∧ (Part000.getAll h d store qopt (some iname) roA).requestIssued
      = false := by
  refine ⟨?_, ?_, ?_, ?_, ?_, ?_, ?_, ?_⟩ <;>
    simp [DbTs.get, DbTs.getAll, Part000.get, Part000.getAll, hdb, hs, hi]

/-- C10 witness: a concrete store without the index "byColor": the call
rejects with the NotFoundError and issues no request. -/
theorem missing_index_rejects_witness :
    hOpen.db = some () ∧ d0.lookup "s" = some st0
  ∧ hasIndex st0 "byColor" = false
  ∧ (DbTs.get hOpen d0 "s" 1 (some "byColor")
        (ReqOutcome.ok JSVal.undef)).outcome
      = Outcome.rejected (JSVal.dom "NotFoundError")
  ∧ (DbTs.get hOpen d0 "s" 1 (some "byColor")
        (ReqOutcome.ok JSVal.undef)).requestIssued = false := by
  have h := missing_index_rejects hOpen d0 "s" "byColor" 1 none st0
    (ReqOutcome.ok JSVal.undef) (ReqOutcome.ok []) rfl rfl rfl
  exact ⟨rfl, rfl, rfl, h.1, h.2.1⟩

/-! ### C9 helpers -/

theorem clearEffect_eq (d : DBState) (arg : StoreNamesArg) :
    Part000.clearEffect d arg = DbTs.clearEffect d arg := by
  cases arg <;> rfl

theorem clearEffect_foldl_sig (names : List String) :
    ∀ (d : DBState) (n : String),
    ((names.foldl (fun acc nm => updateStore acc nm clearStore) d).lookup
        n).map storeSig
      = (d.lookup n).map storeSig := by
  induction names with
  | nil => intro d n; rfl
  | cons x t ih =>
    intro d n
    simp only [List.foldl_cons]
    rw [ih (updateStore d x clearStore) n]
    exact updateStore_sig_pointwise d x clearStore (fun st => rfl) n

theorem clearEffect_sig_arg (arg : StoreNamesArg) (d : DBState) (n : String) :
    ((DbTs.clearEffect d arg).lookup n).map storeSig
      = (d.lookup n).map storeSig := by
  cases arg with
  | one nm => exact updateStore_sig_pointwise d nm clearStore (fun st => rfl) n
  | many names => exact clearEffect_foldl_sig names d n

theorem add_engine_sig_dbts (h : WebDBHandle) (d : DBState) (store : String)
    (v : JSVal) (k : Option Key) (n : String) :
    (((DbTs.add h d store v k).engine).lookup n).map storeSig
      = (d.lookup n).map storeSig := by
  have hcases : (DbTs.add h d store v k).engine = d
      ∨ ∃ st st2 kk, d.lookup store = some st
        ∧ storeAddReq st v k = Except.ok (st2, kk)
        ∧ (DbTs.add h d store v k).engine
            = updateStore d store (fun _ => st2) := by
    cases hdb : h.db with
    | none => left; simp [DbTs.add, hdb]
    | some u =>
      cases hls : d.lookup store with
      | none => left; simp [DbTs.add, hdb, hls]
      | some st =>
        cases hadd : storeAddReq st v k with
        | error e => left; simp [DbTs.add, hdb, hls, hadd]
        | ok pr =>
          obtain ⟨st2, kk⟩ := pr
          right
          refine ⟨st, st2, kk, rfl, hadd, ?_⟩
          simp [DbTs.add, hdb, hls, hadd]
  rcases hcases with he | ⟨st, st2, kk, hls, hadd, he⟩
  · rw [he]
  · rw [he, lookup_updateStore]
    by_cases hn : n = store
    · subst hn
      rw [if_pos rfl, hls]
      simp [storeAddReq_sig st st2 v k kk hadd]
    · rw [if_neg hn]

theorem add_engine_sig_p0 (h : WebDBHandle) (d : DBState) (store : String)
    (v : JSVal) (k : Option Key) (n : String) :
    (((Part000.add h d store v k).engine).lookup n).map storeSig
      = (d.lookup n).map storeSig := by
  have hcases : (Part000.add h d store v k).engine = d
      ∨ ∃ st st2 kk, d.lookup store = some st
        ∧ storeAddReq st v k = Except.ok (st2, kk)
        ∧ (Part000.add h d store v k).engine
            = updateStore d store (fun _ => st2) := by
    cases hdb : h.db with
    | none => left; simp [Part000.add, hdb]
    | some u =>
      cases hls : d.lookup store with
      | none => left; simp [Part000.add, hdb, hls]
      | some st =>
        cases hadd : storeAddReq st v k with
        | error e => left; simp [Part000.add, hdb, hls, hadd]
        | ok pr =>
          obtain ⟨st2, kk⟩ := pr
          right
          refine ⟨st, st2, kk, rfl, hadd, ?_⟩
          simp [Part000.add, hdb, hls, hadd]
  rcases hcases with he | ⟨st, st2, kk, hls, hadd, he⟩
  · rw [he]
  · rw [he, lookup_updateStore]
    by_cases hn : n = store
    · subst hn
      rw [if_pos rfl, hls]
      simp [storeAddReq_sig st st2 v k kk hadd]
    · rw [if_neg hn]

theorem put_engine_sig_dbts (h : WebDBHandle) (d : DBState) (store : String)
    (v : JSVal) (k : Option Key) (n : String) :
    (((DbTs.put h d store v k).engine).lookup n).map storeSig
      = (d.lookup n).map storeSig := by
  have hcases : (DbTs.put h d store v k).engine = d
      ∨ ∃ st, d.lookup store = some st
        ∧ (DbTs.put h d store v k).engine
            = updateStore d store (fun _ => (storePutReq st v k).1) := by
    cases hdb : h.db with
    | none => left; simp [DbTs.put, hdb]
    | some u =>
      cases hls : d.lookup store with
      | none => left; simp [DbTs.put, hdb, hls]
      | some st =>
        right
        refine ⟨st, rfl, ?_⟩
        simp [DbTs.put, hdb, hls, storePutReq]
  rcases hcases with he | ⟨st, hls, he⟩
  · rw [he]
  · rw [he, lookup_updateStore]
    by_cases hn : n = store
    · subst hn
      rw [if_pos rfl, hls]
      simp [storePutReq_sig st v k]
    · rw [if_neg hn]

theorem put_engine_sig_p0 (h : WebDBHandle) (d : DBState) (store : String)
    (v : JSVal) (k : Option Key) (n : String) :
    (((Part000.put h d store v k).engine).lookup n).map storeSig
      = (d.lookup n).map storeSig := by
  have hcases : (Part000.put h d store v k).engine = d
      ∨ ∃ st, d.lookup store = some st
        ∧ (Part000.put h d store v k).engine
            = updateStore d store (fun _ => (storePutReq st v k).1) := by
    cases hdb : h.db with
    | none => left; simp [Part000.put, hdb]
    | some u =>
      cases hls : d.lookup store with
      | none => left; simp [Part000.put, hdb, hls]
      | some st =>
        right
        refine ⟨st, rfl, ?_⟩
        simp [Part000.put, hdb, hls, storePutReq]
  rcases hcases with he | ⟨st, hls, he⟩
  · rw [he]
  · rw [he, lookup_updateStore]
    by_cases hn : n = store
    · subst hn
      rw [if_pos rfl, hls]
      simp [storePutReq_sig st v k]
    · rw [if_neg hn]

theorem delete_engine_sig_dbts (h : WebDBHandle) (d : DBState)
    (store : String) (q : Key) (n : String) :
    (((DbTs.delete h d store q).engine).lookup n).map storeSig
      = (d.lookup n).map storeSig := by
  have hcases : (DbTs.delete h d store q).engine = d
      ∨ (DbTs.delete h d store q).engine
          = updateStore d store (fun s => storeDeleteReq s q) := by
    cases hdb : h.db with
    | none => left; simp [DbTs.delete, hdb]
    | some u =>
      cases hls : d.lookup store with
      | none => left; simp [DbTs.delete, hdb, hls]
      | some st => right; simp [DbTs.delete, hdb, hls]
  rcases hcases with he | he
  · rw [he]
  · rw [he]
    exact updateStore_sig_pointwise d store (fun s => storeDeleteReq s q) (fun st => rfl) n

theorem delete_engine_sig_p0 (h : WebDBHandle) (d : DBState)
    (store : String) (q : Key) (n : String) :
    (((Part000.delete h d store q).engine).lookup n).map storeSig
      = (d.lookup n).map storeSig := by
  have hcases : (Part000.delete h d store q).engine = d
      ∨ (Part000.delete h d store q).engine
          = updateStore d store (fun s => storeDeleteReq s q) := by
    cases hdb : h.db with
    | none => left; simp [Part000.delete, hdb]
    | some u =>
      cases hls : d.lookup store with
      | none => left; simp [Part000.delete, hdb, hls]
      | some st => right; simp [Part000.delete, hdb, hls]
  rcases hcases with he | he
  · rw [he]
  · rw [he]
    exact updateStore_sig_pointwise d store (fun s => storeDeleteReq s q) (fun st => rfl) n

theorem clear_engine_sig_dbts (h : WebDBHandle) (d : DBState)
    (arg : StoreNamesArg) (txo : TxOutcome) (n : String) :
    (((DbTs.clear h d arg txo).engine).lookup n).map storeSig
      = (d.lookup n).map storeSig := by
  have hcases : (DbTs.clear h d arg txo).engine = d
      ∨ (DbTs.clear h d arg txo).engine = DbTs.clearEffect d arg := by
    cases hdb : h.db with
    | none => left; simp [DbTs.clear, hdb]
    | some u =>
      by_cases hc : (argNames arg).all (containsStore d) = true
      · right; simp [DbTs.clear, hdb, hc]
      · left; simp [DbTs.clear, hdb, hc]
  rcases hcases with he | he
  · rw [he]
  · rw [he]
    exact clearEffect_sig_arg arg d n

theorem clear_engine_sig_p0 (h : WebDBHandle) (d : DBState)
    (arg : StoreNamesArg) (txo : TxOutcome) (n : String) :
    (((Part000.clear h d arg txo).engine).lookup n).map storeSig
      = (d.lookup n).map storeSig := by
  have hcases : (Part000.clear h d arg txo).engine = d
      ∨ (Part000.clear h d arg txo).engine = DbTs.clearEffect d arg := by
    cases hdb : h.db with
    | none => left; simp [Part000.clear, hdb]
    | some u =>
      by_cases hc : (argNames arg).all (containsStore d) = true
      · right; simp [Part000.clear, hdb, hc, clearEffect_eq]
      · left; simp [Part000.clear, hdb, hc]
  rcases hcases with he | he
  · rw [he]
  · rw [he]
    exact clearEffect_sig_arg arg d n

/-! ### C9 -/

/-- C9: every operation method of both versions leaves the handle fields
(db, setup, handlers) unchanged whether its promise resolves, rejects or
stays pending; the read operations leave the engine contents untouched
and the write operations change records only, never the schema the
connection object exposes (store set, options, indexes); and the db field
is assigned by the upgrade and success continuations of the open
handshake. -/
theorem operations_frame (h : WebDBHandle) (d : DBState)
    (arg : StoreNamesArg) (mode : TxMode) (store : String) (q : Key)
    (qopt : Option Key) (i : Option String) (ro : ReqOutcome JSVal)
    (roA : ReqOutcome (List JSVal)) (v : JSVal) (k : Option Key)
    (txo : TxOutcome) :
    (DbTs.transaction h d arg mode).handle = h
  ∧ (DbTs.get h d store q i ro).handle = h
  ∧ (DbTs.getAll h d store qopt i roA).handle = h
  ∧ (DbTs.add h d store v k).handle = h
  ∧ (DbTs.put h d store v k).handle = h
  ∧ (DbTs.delete h d store q).handle = h
  ∧ (DbTs.clear h d arg txo).handle = h
  ∧ (Part000.transaction h d arg mode).handle = h
  ∧ (Part000.get h d store q i ro).handle = h
  ∧ (Part000.getAll h d store qopt i roA).handle = h
  ∧ (Part000.add h d store v k).handle = h
  ∧ (Part000.put h d store v k).handle = h
  ∧ (Part000.delete h d store q).handle = h
  ∧ (Part000.clear h d arg txo).handle = h
  ∧ (DbTs.transaction h d arg mode).engine = d
  ∧ (DbTs.get h d store q i ro).engine = d
  ∧ (DbTs.getAll h d store qopt i roA).engine = d
  ∧ (Part000.transaction h d arg mode).engine = d
  ∧ (Part000.get h d store q i ro).engine = d
  ∧ (Part000.getAll h d store qopt i roA).engine = d
  ∧ (∀ n, (((DbTs.add h d store v k).engine).lookup n).map storeSig
        = (d.lookup n).map storeSig)
  ∧ (∀ n, (((DbTs.put h d store v k).engine).lookup n).map storeSig
        = (d.lookup n).map storeSig)
  ∧ (∀ n, (((DbTs.delete h d store q).engine).lookup n).map storeSig
        = (d.lookup n).map storeSig)
  ∧ (∀ n, (((DbTs.clear h d arg txo).engine).lookup n).map storeSig
        = (d.lookup n).map storeSig)
  ∧ (∀ n, (((Part000.add h d store v k).engine).lookup n).map storeSig
        = (d.lookup n).map storeSig)
  ∧ (∀ n, (((Part000.put h d store v k).engine).lookup n).map storeSig
        = (d.lookup n).map storeSig)
  ∧ (∀ n, (((Part000.delete h d store q).engine).lookup n).map storeSig
        = (d.lookup n).map storeSig)
  ∧ (∀ n, (((Part000.clear h d arg txo).engine).lookup n).map storeSig
        = (d.lookup n).map storeSig)
  ∧ (onUpgradeNeededCont h d).1.db = some ()
  ∧ (onSuccessCont h).db = some () :=
  ⟨rfl, rfl, rfl, rfl, rfl, rfl, rfl, rfl, rfl, rfl, rfl, rfl, rfl, rfl,
   rfl, rfl, rfl, rfl, rfl, rfl,
   fun n => add_engine_sig_dbts h d store v k n,
   fun n => put_engine_sig_dbts h d store v k n,
   fun n => delete_engine_sig_dbts h d store q n,
   fun n => clear_engine_sig_dbts h d arg txo n,
   fun n => add_engine_sig_p0 h d store v k n,
   fun n => put_engine_sig_p0 h d store v k n,
   fun n => delete_engine_sig_p0 h d store q n,
   fun n => clear_engine_sig_p0 h d arg txo n,
   rfl, rfl⟩

/-! ### C7 helpers -/

theorem lookup_eq_none_of_not_contains (d : DBState) (n : String)
    (h : containsStore d n = false) : d.lookup n = none := by
  cases hl : d.lookup n with
  | none => rfl
  | some st => simp [containsStore, hl] at h

theorem upgradeStep_lookup (d : DBState) (sd : WebDBObjectStore)
    (m : String) :
    (upgradeStep d sd).lookup m
      = if m = sd.name then
          (if (recreateOf sd || !containsStore d sd.name) = true
           then some (mkStore sd) else d.lookup m)
        else d.lookup m := by
  by_cases hm : m = sd.name
  · subst hm
    rw [if_pos rfl]
    cases hrec : recreateOf sd with
    | true =>
      rw [if_pos (by simp [hrec])]
      cases hcon : containsStore d sd.name with
      | true =>
        rw [upgradeStep_recreate d sd hrec hcon, lookup_append_or,
          lookup_delete_self]
        simp [List.lookup]
      | false =>
        rw [upgradeStep_create d sd hcon, lookup_append_or,
          lookup_eq_none_of_not_contains d sd.name hcon]
        simp [List.lookup]
    | false =>
      cases hcon : containsStore d sd.name with
      | true =>
        rw [if_neg (by simp [hrec, hcon])]
        rw [upgradeStep_skip d sd hcon hrec]
      | false =>
        rw [if_pos (by simp [hrec, hcon])]
        rw [upgradeStep_create d sd hcon, lookup_append_or,
          lookup_eq_none_of_not_contains d sd.name hcon]
        simp [List.lookup]
  · rw [if_neg hm]
    have hb : (m == sd.name) = false := by simp [hm]
    cases hrec : recreateOf sd with
    | true =>
      cases hcon : containsStore d sd.name with
      | true =>
        rw [upgradeStep_recreate d sd hrec hcon, lookup_append_or,
          lookup_delete_ne d sd.name m hm]
        simp [List.lookup, hb]
      | false =>
        rw [upgradeStep_create d sd hcon, lookup_append_or]
        simp [List.lookup, hb]
    | false =>
      cases hcon : containsStore d sd.name with
      | true => rw [upgradeStep_skip d sd hcon hrec]
      | false =>
        rw [upgradeStep_create d sd hcon, lookup_append_or]
        simp [List.lookup, hb]

theorem foldl_upgradeStep_lookup_notmem (l : List WebDBObjectStore) :
    ∀ (d : DBState) (m : String), (∀ sd ∈ l, sd.name ≠ m) →
    (l.foldl upgradeStep d).lookup m = d.lookup m := by
  induction l with
  | nil => intro d m _; rfl
  | cons x t ih =>
    intro d m hm
    simp only [List.foldl_cons]
    rw [ih (upgradeStep d x) m
      (fun sd hsd => hm sd (List.mem_cons_of_mem _ hsd))]
    rw [upgradeStep_lookup]
    have hne : ¬m = x.name := fun h => hm x (List.mem_cons_self _ _) h.symm
    rw [if_neg hne]

theorem foldl_upgradeStep_creates (l : List WebDBObjectStore) :
    ∀ (d : DBState), (l.map (fun sd => sd.name)).Nodup →
    (∀ sd ∈ l, d.lookup sd.name = none) →
    ∀ sd ∈ l,
      (l.foldl upgradeStep d).lookup sd.name = some (mkStore sd) := by
  induction l with
  | nil => intro d _ _ sd hsd; simp at hsd
  | cons x t ih =>
    intro d hnd hnone sd hsd
    simp only [List.map_cons, List.nodup_cons] at hnd
    simp only [List.foldl_cons]
    rcases List.mem_cons.mp hsd with h | h
    · subst h
      rw [foldl_upgradeStep_lookup_notmem t (upgradeStep d sd) sd.name ?nm]
      case nm =>
        intro sd2 hsd2 heq
        have hmem : sd2.name ∈ t.map (fun s => s.name) :=
          List.mem_map_of_mem _ hsd2
        rw [heq] at hmem
        exact hnd.1 hmem
      rw [upgradeStep_lookup, if_pos rfl]
      have hx : d.lookup sd.name = none := hnone sd (List.mem_cons_self _ _)
      have hcon : containsStore d sd.name = false := by
        simp [containsStore, hx]
      rw [if_pos (by simp [hcon])]
    · refine ih (upgradeStep d x) hnd.2 ?_ sd h
      intro sd2 hsd2
      rw [upgradeStep_lookup]
      have hne : ¬sd2.name = x.name := by
        intro heq
        have hmem : sd2.name ∈ t.map (fun s => s.name) :=
          List.mem_map_of_mem _ hsd2
        rw [heq] at hmem
        exact hnd.1 hmem
      rw [if_neg hne]
      exact hnone sd2 (List.mem_cons_of_mem _ hsd2)

theorem foldl_upgradeStep_afterRun (l : List WebDBObjectStore) :
    ∀ (d : DBState), (l.map (fun sd => sd.name)).Nodup →
    ∀ sd ∈ l, ((l.foldl upgradeStep d).lookup sd.name).isSome = true
      ∧ (recreateOf sd = true →
          (l.foldl upgradeStep d).lookup sd.name = some (mkStore sd)) := by
  induction l with
  | nil => intro d _ sd hsd; simp at hsd
  | cons x t ih =>
    intro d hnd sd hsd
    simp only [List.map_cons, List.nodup_cons] at hnd
    simp only [List.foldl_cons]
    rcases List.mem_cons.mp hsd with h | h
    · subst h
      rw [foldl_upgradeStep_lookup_notmem t (upgradeStep d sd) sd.name ?nm2]
      case nm2 =>
        intro sd2 hsd2 heq
        have hmem : sd2.name ∈ t.map (fun s => s.name) :=
          List.mem_map_of_mem _ hsd2
        rw [heq] at hmem
        exact hnd.1 hmem
      rw [upgradeStep_lookup, if_pos rfl]
      constructor
      · cases hrec : recreateOf sd with
        | true => rw [if_pos (by simp [hrec])]; rfl
        | false =>
          cases hcon : containsStore d sd.name with
          | true =>
            rw [if_neg (by simp [hrec, hcon])]
            exact hcon
          | false => rw [if_pos (by simp [hrec, hcon])]; rfl
      · intro hrec
        rw [if_pos (by simp [hrec])]
    · exact ih (upgradeStep d x) hnd.2 sd h

theorem foldl_upgradeStep_idem (l : List WebDBObjectStore) :
    ∀ (d : DBState),
    (∀ sd ∈ l, ((d.lookup sd.name).isSome = true
      ∧ (recreateOf sd = true → d.lookup sd.name = some (mkStore sd)))) →
    ∀ n, (l.foldl upgradeStep d).lookup n = d.lookup n := by
  induction l with
  | nil => intro d _ n; rfl
  | cons x t ih =>
    intro d hd n
    simp only [List.foldl_cons]
    have hstep : ∀ m, (upgradeStep d x).lookup m = d.lookup m := by
      intro m
      rw [upgradeStep_lookup]
      by_cases hm : m = x.name
      · subst hm
        rw [if_pos rfl]
        have hx := hd x (List.mem_cons_self _ _)
        cases hrec : recreateOf x with
        | false =>
          have hcon : containsStore d x.name = true := hx.1
          rw [if_neg (by simp [hrec, hcon])]
        | true =>
          rw [if_pos (by simp [hrec])]
          exact (hx.2 hrec).symm
      · rw [if_neg hm]
    have hrest : ∀ sd ∈ t, (((upgradeStep d x).lookup sd.name).isSome = true
        ∧ (recreateOf sd = true →
            (upgradeStep d x).lookup sd.name = some (mkStore sd))) := by
      intro sd hsd
      rw [hstep sd.name]
      exact hd sd (List.mem_cons_of_mem _ hsd)
    rw [ih (upgradeStep d x) hrest n, hstep n]

/-! ### C7 -/

/-- A store descriptor declaring store "s" with an index "i", not marked
recreate. -/
def sdIdx : WebDBObjectStore :=
  { name := "s",
    configs := some { indexes := some [{ name := "i", keyPath := "f" }] } }

/-- C7 counterexample: when the open handshake starts from a database
that already holds store "s" without indexes, the schema application
leaves the store untouched, so the declared index "i" does not exist
afterwards: the claim fails for such starting states. -/
theorem schema_index_not_created_cex :
    handleUpgradeNeeded (some { objectStores := some [sdIdx] }) d0 = d0
  ∧ ((handleUpgradeNeeded (some { objectStores := some [sdIdx] })
        d0).lookup "s").map (fun st => hasIndex st "i") = some false :=
  ⟨rfl, rfl⟩

/-- C7 amended: for a declared schema with pairwise distinct store names,
applying it to a fresh (empty) database creates every declared store,
carrying every declared index; and re-running the schema application over
any state it already produced changes no store: the name-to-store mapping
(schema and records alike) is unchanged. -/
theorem schema_application_idempotent (l : List WebDBObjectStore)
    (d : DBState) (hnd : (l.map (fun sd => sd.name)).Nodup) :
    (∀ sd ∈ l,
      (handleUpgradeNeeded (some { objectStores := some l }) []).lookup
          sd.name = some (mkStore sd)
      ∧ ∀ idx ∈ indexesOf sd, hasIndex (mkStore sd) idx.name = true)
  ∧ (∀ n,
      (handleUpgradeNeeded (some { objectStores := some l })
          (handleUpgradeNeeded (some { objectStores := some l }) d)).lookup
            n
        = (handleUpgradeNeeded (some { objectStores := some l })
            d).lookup n) := by
  constructor
  · intro sd hsd
    constructor
    · exact foldl_upgradeStep_creates l [] hnd (fun sd2 _ => rfl) sd hsd
    · intro idx hidx
      have hmem : idx ∈ (mkStore sd).indexes := by
        rw [mkStore_indexes]
        exact hidx
      simp only [hasIndex, List.any_eq_true]
      exact ⟨idx, hmem, by simp⟩
  · intro n
    exact foldl_upgradeStep_idem l (l.foldl upgradeStep d)
      (foldl_upgradeStep_afterRun l d hnd) n

/-- C7 witness: the amended statement evaluated at the one-store schema
declaring index "i": from the empty database the store exists with its
index, and re-running over a produced state changes nothing. -/
theorem schema_application_idempotent_witness :
    ([sdIdx].map (fun sd => sd.name)).Nodup
  ∧ (handleUpgradeNeeded (some { objectStores := some [sdIdx] }) []).lookup
      sdIdx.name = some (mkStore sdIdx)
  ∧ hasIndex (mkStore sdIdx) "i" = true
  ∧ (∀ n,
      (handleUpgradeNeeded (some { objectStores := some [sdIdx] })
          (handleUpgradeNeeded (some { objectStores := some [sdIdx] })
            d0)).lookup n
        = (handleUpgradeNeeded (some { objectStores := some [sdIdx] })
            d0).lookup n) := by
  have h := schema_application_idempotent [sdIdx] d0 (by simp)
  have h1 := h.1 sdIdx (List.mem_cons_self _ _)
  refine ⟨by simp, h1.1, ?_, h.2⟩
  exact h1.2 { name := "i", keyPath := "f" } (by decide)

end WebDBSpec
